import Mathlib

/-!
Verification of the streamfactory core services against their
natural-language specification.  The JavaScript sources are embedded
shallowly: JS numbers become rationals, each `Math.random()` call becomes
a draw from an injected `rand : ℕ → ℚ` sequence, fallible operations
return `Except`, and the externally observable callback effects of the
encoder wrappers are modelled as explicit event or action lists.
-/

namespace StreamFactory

/-! ### LoopPlanner inside `assembleVideo` (src/unnamed/part_004, lines 157-267)

The concat-plan construction step of `VideoService.assembleVideo`:
for `ping-pong` it first materializes the reversed clip (one call to
`createReversedVideo`), computes `loopsNeeded = Math.ceil(audioDuration /
(videoDuration * 2))` and pushes the pair forward/reversed once per loop
iteration; for `standard` it computes `loopsNeeded = Math.ceil(audioDuration /
videoDuration)` and pushes the forward file once per iteration; any other
loop type throws `Unknown loop type`. -/

/-- Direction of one planned concat segment: which file the concat-list line
references (the source clip or the single reversed clip). -/
inductive Direction where
  | forward
  | reverse
deriving DecidableEq

/-- Ping-pong loop count: `Math.ceil(audioDuration / (videoDuration * 2))`. -/
def pingPongLoops (videoDuration audioDuration : ℚ) : ℕ :=
  (⌈audioDuration / (videoDuration * 2)⌉).toNat

/-- Standard loop count: `Math.ceil(audioDuration / videoDuration)`. -/
def standardLoops (videoDuration audioDuration : ℚ) : ℕ :=
  (⌈audioDuration / videoDuration⌉).toNat

/-- Concat list of the ping-pong branch: the `for` loop pushes the forward
file and the reversed file once per iteration (part_004 lines 188-191). -/
def pingPongSegments : ℕ → List Direction
  | 0 => []
  | n + 1 => Direction.forward :: Direction.reverse :: pingPongSegments n

/-- Concat list of the standard branch: one forward file per iteration
(part_004 lines 198-200). -/
def standardSegments (n : ℕ) : List Direction :=
  List.replicate n Direction.forward

/-- Outcome of the concat-list construction of `assembleVideo`: how many
times `createReversedVideo` ran during the assembly, and the planned
segment list. -/
structure AssemblyPlan where
  reversalsMaterialized : ℕ
  plan : List Direction
deriving DecidableEq

/-- Concat-plan construction of `assembleVideo` (part_004 lines 166-203).
In the ping-pong branch `createReversedVideo` is invoked exactly once,
before the loop that repeatedly references the one reversed file. -/
def buildConcatPlan (loopType : String) (videoDuration audioDuration : ℚ) :
    Except String AssemblyPlan :=
  if loopType = "ping-pong" then
    Except.ok ⟨1, pingPongSegments (pingPongLoops videoDuration audioDuration)⟩
  else if loopType = "standard" then
    Except.ok ⟨0, standardSegments (standardLoops videoDuration audioDuration)⟩
  else
    Except.error ("Unknown loop type: " ++ loopType)

/-- Total duration the plan covers: every planned segment (forward or
reversed) plays the whole source clip once. -/
def plannedDuration (plan : List Direction) (videoDuration : ℚ) : ℚ :=
  plan.length * videoDuration

theorem pingPongSegments_length (n : ℕ) : (pingPongSegments n).length = 2 * n := by
  induction n with
  | zero => rfl
  | succ n ih =>
    simp only [pingPongSegments, List.length_cons, ih]
    ring

theorem pingPongSegments_get (n i : ℕ) (h : i < (pingPongSegments n).length) :
    (pingPongSegments n).get ⟨i, h⟩ =
      if i % 2 = 0 then Direction.forward else Direction.reverse := by
  induction n generalizing i with
  | zero => simp [pingPongSegments] at h
  | succ n ih =>
    match i with
    | 0 => rfl
    | 1 => rfl
    | i + 2 =>
      have h' : i < (pingPongSegments n).length := by
        have hl := h
        simp only [pingPongSegments, List.length_cons] at hl
        omega
      have hmod : (i + 2) % 2 = i % 2 := Nat.add_mod_right i 2
      simpa [pingPongSegments, hmod] using ih i h'

theorem pingPongSegments_head? (n : ℕ) (hn : n ≠ 0) :
    (pingPongSegments n).head? = some Direction.forward := by
  cases n with
  | zero => exact absurd rfl hn
  | succ n => rfl

theorem pingPongSegments_chain' (n : ℕ) :
    List.Chain' (fun a b => a ≠ b) (pingPongSegments n) := by
  induction n with
  | zero => simp [pingPongSegments]
  | succ n ih =>
    rw [pingPongSegments, List.chain'_cons]
    refine ⟨by simp, ?_⟩
    rw [List.chain'_cons']
    refine ⟨?_, ih⟩
    intro y hy
    cases n with
    | zero => simp [pingPongSegments] at hy
    | succ m =>
      rw [pingPongSegments_head? _ (Nat.succ_ne_zero m)] at hy
      simp only [Option.mem_def, Option.some.injEq] at hy
      subst hy
      simp

theorem ceil_mul_cover (u t : ℚ) (hu : 0 < u) (ht : 0 < t) :
    t ≤ ((⌈t / u⌉).toNat : ℚ) * u := by
  have hc : 0 < ⌈t / u⌉ := Int.ceil_pos.mpr (div_pos ht hu)
  have hcast : ((⌈t / u⌉.toNat : ℚ)) = ((⌈t / u⌉ : ℤ) : ℚ) := by
    exact_mod_cast Int.toNat_of_nonneg hc.le
  have h1 : t / u ≤ ((⌈t / u⌉ : ℤ) : ℚ) := Int.le_ceil _
  have h2 : t / u * u ≤ ((⌈t / u⌉ : ℤ) : ℚ) * u :=
    mul_le_mul_of_nonneg_right h1 hu.le
  rw [div_mul_cancel₀ t (ne_of_gt hu)] at h2
  rw [hcast]
  exact h2

/-- Claim C1: for every ping-pong assembly with source duration S > 0 and audio
duration T ≥ 1, the reversed clip is materialized exactly once and reused,
and the concat plan holds 2 × ⌈T / (2S)⌉ segments strictly alternating
forward/reverse (never two same-direction segments adjacent); at S = 10 and
T = 95 the loop count is 5 and the plan has 10 segments totalling 100
seconds. -/
theorem pingpong_plan_correct (S T : ℚ) (hS : 0 < S) (hT : 1 ≤ T) :
    ∃ p : AssemblyPlan,
      buildConcatPlan "ping-pong" S T = Except.ok p ∧
      p.reversalsMaterialized = 1 ∧
      p.plan.length = 2 * (⌈T / (2 * S)⌉).toNat ∧
      1 ≤ (⌈T / (2 * S)⌉).toNat ∧
      List.Chain' (fun a b => a ≠ b) p.plan ∧
      (∀ i (h : i < p.plan.length),
        p.plan.get ⟨i, h⟩ =
          if i % 2 = 0 then Direction.forward else Direction.reverse) ∧
      (S = 10 → T = 95 →
        pingPongLoops S T = 5 ∧ p.plan.length = 10 ∧
          plannedDuration p.plan S = 100) := by
  have hcomm : S * 2 = 2 * S := mul_comm S 2
  refine ⟨⟨1, pingPongSegments (pingPongLoops S T)⟩, by simp [buildConcatPlan],
    rfl, ?_, ?_, pingPongSegments_chain' _, ?_, ?_⟩
  · rw [pingPongSegments_length, pingPongLoops, hcomm]
  · have hpos : 0 < T / (2 * S) := div_pos (by linarith) (by linarith)
    have hc : 0 < ⌈T / (2 * S)⌉ := Int.ceil_pos.mpr hpos
    omega
  · intro i h
    exact pingPongSegments_get _ i h
  · rintro rfl rfl
    have hloops : pingPongLoops 10 95 = 5 := by
      rw [pingPongLoops]
      have : ⌈(95 : ℚ) / (10 * 2)⌉ = 5 := by
        rw [Int.ceil_eq_iff]
        norm_num
      rw [this]
      rfl
    have hlen : (pingPongSegments (pingPongLoops 10 95)).length = 10 := by
      rw [pingPongSegments_length, hloops]
    refine ⟨hloops, hlen, ?_⟩
    rw [plannedDuration, hlen]
    norm_num

theorem pingpong_plan_correct_witness :
    ((0 : ℚ) < 10 ∧ (1 : ℚ) ≤ 95) ∧
    (∃ p : AssemblyPlan,
      buildConcatPlan "ping-pong" 10 95 = Except.ok p ∧
      p.reversalsMaterialized = 1 ∧
      p.plan.length = 2 * (⌈(95 : ℚ) / (2 * 10)⌉).toNat ∧
      1 ≤ (⌈(95 : ℚ) / (2 * 10)⌉).toNat ∧
      List.Chain' (fun a b => a ≠ b) p.plan ∧
      (∀ i (h : i < p.plan.length),
        p.plan.get ⟨i, h⟩ =
          if i % 2 = 0 then Direction.forward else Direction.reverse) ∧
      ((10 : ℚ) = 10 → (95 : ℚ) = 95 →
        pingPongLoops 10 95 = 5 ∧ p.plan.length = 10 ∧
          plannedDuration p.plan 10 = 100)) :=
  ⟨by decide, pingpong_plan_correct 10 95 (by decide) (by decide)⟩

/-- Claim C2: for every source duration S > 0, target T ≥ 1 and loop type among
ping-pong and standard, the total planned duration is at least T, so the
merge stage only ever truncates; for S = 10, T = 95, standard, the plan is
10 forward segments totalling 100 seconds. -/
theorem plan_covers_target (S T : ℚ) (loopType : String)
    (hS : 0 < S) (hT : 1 ≤ T)
    (hlt : loopType = "ping-pong" ∨ loopType = "standard") :
    ∃ p : AssemblyPlan,
      buildConcatPlan loopType S T = Except.ok p ∧
      T ≤ plannedDuration p.plan S ∧
      (loopType = "standard" → S = 10 → T = 95 →
        p.plan = List.replicate 10 Direction.forward ∧
          plannedDuration p.plan S = 100) := by
  have hT0 : 0 < T := by linarith
  rcases hlt with rfl | rfl
  · refine ⟨⟨1, pingPongSegments (pingPongLoops S T)⟩,
      by simp [buildConcatPlan], ?_, by intro h; simp at h⟩
    rw [plannedDuration, pingPongSegments_length, pingPongLoops]
    have hcover := ceil_mul_cover (S * 2) T (by linarith) hT0
    push_cast
    push_cast at hcover
    linarith
  · refine ⟨⟨0, standardSegments (standardLoops S T)⟩,
      by simp [buildConcatPlan], ?_, ?_⟩
    · rw [plannedDuration, standardSegments, List.length_replicate, standardLoops]
      have hcover := ceil_mul_cover S T hS hT0
      linarith
    · rintro - rfl rfl
      have hloops : standardLoops 10 95 = 10 := by
        rw [standardLoops]
        have : ⌈(95 : ℚ) / 10⌉ = 10 := by
          rw [Int.ceil_eq_iff]
          norm_num
        rw [this]
        rfl
      rw [standardSegments, hloops]
      constructor
      · rfl
      · rw [plannedDuration]
        norm_num

theorem plan_covers_target_witness :
    (((0 : ℚ) < 10 ∧ (1 : ℚ) ≤ 95) ∧
      ("standard" = "ping-pong" ∨ "standard" = "standard")) ∧
    (∃ p : AssemblyPlan,
      buildConcatPlan "standard" 10 95 = Except.ok p ∧
      (95 : ℚ) ≤ plannedDuration p.plan 10 ∧
      ("standard" = "standard" → (10 : ℚ) = 10 → (95 : ℚ) = 95 →
        p.plan = List.replicate 10 Direction.forward ∧
          plannedDuration p.plan 10 = 100)) :=
  ⟨⟨by decide, Or.inr rfl⟩,
    plan_covers_target 10 95 "standard" (by decide) (by decide) (Or.inr rfl)⟩

/-! ### CurveGenerator (src/services/aiService.js, AudioService lines 279-309)

`generateVolumeCurve(duration, baseVolume, volatility)` and
`generatePanCurve(duration, spatialDrift)` both compute
`points = Math.max(10, Math.floor(duration / 60))` and then loop
`for (let i = 0; i <= points; i++)`, so they emit `points + 1` samples.
Each iteration draws one fresh `Math.random()` value, modelled as `rand i`. -/

/-- Sample count control of both curve generators:
`Math.max(10, Math.floor(duration / 60))`. -/
def points (duration : ℚ) : ℕ :=
  max 10 (⌊duration / 60⌋).toNat

/-- One volume curve sample: `{ time, volume }`. -/
structure VolumePoint where
  time : ℚ
  volume : ℚ
deriving DecidableEq

/-- One pan curve sample: `{ time, pan }`. -/
structure PanPoint where
  time : ℚ
  pan : ℚ
deriving DecidableEq

/-- `AudioService.generateVolumeCurve` (aiService.js lines 279-292):
`time = (i / points) * duration`,
`volume = Math.max(0.1, Math.min(1.0, baseVolume + (rand - 0.5) * volatility))`. -/
def generateVolumeCurve (duration baseVolume volatility : ℚ) (rand : ℕ → ℚ) :
    List VolumePoint :=
  (List.range (points duration + 1)).map fun (i : ℕ) =>
    { time := (i : ℚ) / (points duration : ℚ) * duration,
      volume := max (1 / 10) (min 1 (baseVolume + (rand i - 1 / 2) * volatility)) }

/-- `AudioService.generatePanCurve` (aiService.js lines 297-309):
`time = (i / points) * duration`, `pan = (rand - 0.5) * 2 * spatialDrift`. -/
def generatePanCurve (duration spatialDrift : ℚ) (rand : ℕ → ℚ) :
    List PanPoint :=
  (List.range (points duration + 1)).map fun (i : ℕ) =>
    { time := (i : ℚ) / (points duration : ℚ) * duration,
      pan := (rand i - 1 / 2) * 2 * spatialDrift }

/-! ### FilterGraphBuilder (src/services/aiService.js, lines 314-331) -/

/-- One summand of the volume filter expression
`between(t,LO,HI)*GAIN`: active on the closed window [lo, hi], scaling by
gain there. -/
structure VolumeTerm where
  lo : ℚ
  hi : ℚ
  gain : ℚ
deriving DecidableEq

/-- `AudioService.buildVolumeFilter` (aiService.js lines 314-320): the summed
expression maps each curve point to the term
`between(t,${point.time},${point.time + 1})*${point.volume}`. -/
def buildVolumeFilter (curve : List VolumePoint) : List VolumeTerm :=
  curve.map fun p => ⟨p.time, p.time + 1, p.volume⟩

/-- `AudioService.buildPanFilter` (aiService.js lines 325-331): static stereo
split `(leftGain, rightGain) = (1 - max(0, pan), 1 + min(0, pan))`. -/
def buildPanFilter (panValue : ℚ) : ℚ × ℚ :=
  (1 - max 0 panValue, 1 + min 0 panValue)

/-- Mean pan consumed by the filter builder (aiService.js line 423):
`panCurves[index].reduce((sum, p) => sum + p.pan, 0) / panCurves[index].length`. -/
def averagePan (curve : List PanPoint) : ℚ :=
  (curve.map PanPoint.pan).sum / (curve.length : ℚ)

theorem points_ge_ten (duration : ℚ) : 10 ≤ points duration :=
  Nat.le_max_left _ _

theorem six_mul_points_le (D : ℚ) (h60 : 60 ≤ D) :
    6 * ((points D : ℕ) : ℚ) ≤ D := by
  rw [points]
  rcases le_total (⌊D / 60⌋).toNat 10 with h | h
  · rw [Nat.max_eq_left h]
    push_cast
    linarith
  · rw [Nat.max_eq_right h]
    have h0 : (0 : ℚ) < D := by linarith
    have hnn : 0 ≤ ⌊D / 60⌋ := Int.floor_nonneg.mpr (by positivity)
    have hcast : (((⌊D / 60⌋).toNat : ℚ)) = ((⌊D / 60⌋ : ℤ) : ℚ) := by
      exact_mod_cast Int.toNat_of_nonneg hnn
    have hfl : ((⌊D / 60⌋ : ℤ) : ℚ) ≤ D / 60 := Int.floor_le _
    rw [hcast]
    linarith

theorem points_pos_rat (D : ℚ) : (0 : ℚ) < (points D : ℚ) := by
  have := points_ge_ten D
  exact_mod_cast Nat.lt_of_lt_of_le (by norm_num) this

theorem generateVolumeCurve_length (D b v : ℚ) (rand : ℕ → ℚ) :
    (generateVolumeCurve D b v rand).length = points D + 1 := by
  simp [generateVolumeCurve]

theorem curveTime_step (D : ℚ) (m : ℕ) :
    ((m : ℚ) + 1) / (points D : ℚ) * D - (m : ℚ) / (points D : ℚ) * D
      = D / (points D : ℚ) := by
  have hn : ((points D : ℚ)) ≠ 0 := ne_of_gt (points_pos_rat D)
  field_simp
  ring

theorem generateVolumeCurve_head (D b v : ℚ) (rand : ℕ → ℚ) :
    ((generateVolumeCurve D b v rand).head?.map VolumePoint.time) = some 0 := by
  rw [generateVolumeCurve, List.range_succ_eq_map]
  simp

theorem generateVolumeCurve_last (D b v : ℚ) (rand : ℕ → ℚ) :
    ((generateVolumeCurve D b v rand).getLast?.map VolumePoint.time) = some D := by
  have hn : ((points D : ℚ)) ≠ 0 := ne_of_gt (points_pos_rat D)
  rw [generateVolumeCurve, List.range_succ, List.map_append]
  simp [List.getLast?_concat, div_self hn]

/-- Claim C4 counterexample: the claim says `volumeCurve` has exactly
`max(10, D/60)` sample points, but the loop `for (i = 0; i <= points; i++)`
emits one more: at D = 60 the curve has 11 points while
`max(10, ⌊60/60⌋) = 10`. -/
theorem volume_curve_count_counterexample :
    (generateVolumeCurve 60 1 1 (fun _ => 0)).length ≠
      max 10 (⌊(60 : ℚ) / 60⌋).toNat := by
  have h1 : ⌊(60 : ℚ) / 60⌋ = 1 := by norm_num
  rw [generateVolumeCurve_length, points, h1]
  decide

/-- Claim C4 (amended): for every duration D in [60, 36000], `volumeCurve`
produces exactly `max(10, ⌊D/60⌋) + 1` evenly spaced sample points over
[0, D], inclusive of both endpoints. -/
theorem volume_curve_count_amended (D b v : ℚ) (rand : ℕ → ℚ)
    (h1 : 60 ≤ D) (h2 : D ≤ 36000) :
    (generateVolumeCurve D b v rand).length = points D + 1 ∧
    List.Chain' (fun p q => q.time - p.time = D / (points D : ℚ))
      (generateVolumeCurve D b v rand) ∧
    ((generateVolumeCurve D b v rand).head?.map VolumePoint.time) = some 0 ∧
    ((generateVolumeCurve D b v rand).getLast?.map VolumePoint.time) = some D := by
  refine ⟨generateVolumeCurve_length D b v rand, ?_,
    generateVolumeCurve_head D b v rand, generateVolumeCurve_last D b v rand⟩
  rw [generateVolumeCurve, List.chain'_map]
  refine (List.chain'_range_succ _ (points D)).mpr ?_
  intro m hm
  dsimp only
  push_cast
  linarith [curveTime_step D m]

theorem volume_curve_count_amended_witness :
    ((60 : ℚ) ≤ 60 ∧ (60 : ℚ) ≤ 36000) ∧
    ((generateVolumeCurve 60 1 1 (fun _ => 0)).length
        = points 60 + 1 ∧
      List.Chain' (fun p q => q.time - p.time = (60 : ℚ) / (points 60 : ℚ))
        (generateVolumeCurve 60 1 1 (fun _ => 0)) ∧
      ((generateVolumeCurve 60 1 1
          (fun _ => 0)).head?.map VolumePoint.time) = some 0 ∧
      ((generateVolumeCurve 60 1 1
          (fun _ => 0)).getLast?.map VolumePoint.time) = some 60) :=
  ⟨by decide,
    volume_curve_count_amended 60 1 1 (fun _ => 0)
      (by decide) (by decide)⟩

/-- Claim C6: for every duration D in [60, 36000], base volume b and volatility v
in [0, 1], the sample times of `volumeCurve(D, b, v)` are strictly
increasing and span [0, D], and every sample volume lies in [0.1, 1.0]. -/
theorem volume_curve_bounds (D b v : ℚ) (rand : ℕ → ℚ)
    (h1 : 60 ≤ D) (h2 : D ≤ 36000) (hv0 : 0 ≤ v) (hv1 : v ≤ 1) :
    List.Chain' (fun p q => p.time < q.time) (generateVolumeCurve D b v rand) ∧
    ((generateVolumeCurve D b v rand).head?.map VolumePoint.time) = some 0 ∧
    ((generateVolumeCurve D b v rand).getLast?.map VolumePoint.time) = some D ∧
    ∀ pt ∈ generateVolumeCurve D b v rand,
      1 / 10 ≤ pt.volume ∧ pt.volume ≤ 1 := by
  have hn : (0 : ℚ) < (points D : ℚ) := points_pos_rat D
  refine ⟨?_, generateVolumeCurve_head D b v rand,
    generateVolumeCurve_last D b v rand, ?_⟩
  · rw [generateVolumeCurve, List.chain'_map]
    refine (List.chain'_range_succ _ (points D)).mpr ?_
    intro m hm
    have hpos : (0 : ℚ) < D / (points D : ℚ) := div_pos (by linarith) hn
    dsimp only
    push_cast
    linarith [curveTime_step D m]
  · intro pt hpt
    rcases List.mem_map.mp hpt with ⟨i, -, rfl⟩
    constructor
    · exact le_max_left _ _
    · exact max_le (by norm_num) (min_le_left _ _)

theorem volume_curve_bounds_witness :
    ((60 : ℚ) ≤ 60 ∧ (60 : ℚ) ≤ 36000 ∧ (0 : ℚ) ≤ 1 ∧ (1 : ℚ) ≤ 1) ∧
    (List.Chain' (fun p q => p.time < q.time)
        (generateVolumeCurve 60 1 1 (fun _ => 0)) ∧
      ((generateVolumeCurve 60 1 1
          (fun _ => 0)).head?.map VolumePoint.time) = some 0 ∧
      ((generateVolumeCurve 60 1 1
          (fun _ => 0)).getLast?.map VolumePoint.time) = some 60 ∧
      ∀ pt ∈ generateVolumeCurve 60 1 1 (fun _ => 0),
        1 / 10 ≤ pt.volume ∧ pt.volume ≤ 1) :=
  ⟨by decide,
    volume_curve_bounds 60 1 1 (fun _ => 0)
      (by decide) (by decide) (by decide) (by decide)⟩

/-- Claim C5 counterexample: the claim says the gain expression has one window per
consecutive pair of curve points, but `buildVolumeFilter` maps each point to
its own `between(t, time, time + 1)` term: an 11-point curve yields 11
windows, not 10. -/
theorem volume_filter_window_counterexample :
    (buildVolumeFilter
        (generateVolumeCurve 60 1 1 (fun _ => 0))).length ≠
      (generateVolumeCurve 60 1 1 (fun _ => 0)).length - 1 := by
  have h1 : ⌊(60 : ℚ) / 60⌋ = 1 := by norm_num
  rw [buildVolumeFilter, List.length_map, generateVolumeCurve_length, points, h1]
  decide

/-- Claim C5 (amended): `buildVolumeFilter` emits one closed one-second window per
curve point, each contributing `between(t, time, time + 1) × volume`, and for
every curve `generateVolumeCurve` produces with D ≥ 60 the windows are
pairwise non-overlapping. -/
theorem volume_filter_windows_amended (D b v : ℚ) (rand : ℕ → ℚ)
    (h60 : 60 ≤ D) :
    buildVolumeFilter (generateVolumeCurve D b v rand) =
      (generateVolumeCurve D b v rand).map (fun p => ⟨p.time, p.time + 1, p.volume⟩) ∧
    (buildVolumeFilter (generateVolumeCurve D b v rand)).length =
      (generateVolumeCurve D b v rand).length ∧
    (∀ w ∈ buildVolumeFilter (generateVolumeCurve D b v rand), w.hi = w.lo + 1) ∧
    List.Pairwise (fun w1 w2 => w1.hi < w2.lo)
      (buildVolumeFilter (generateVolumeCurve D b v rand)) := by
  have hn : (0 : ℚ) < (points D : ℚ) := points_pos_rat D
  have hsix := six_mul_points_le D h60
  refine ⟨rfl, List.length_map _ _, ?_, ?_⟩
  · intro w hw
    rcases List.mem_map.mp hw with ⟨p, -, rfl⟩
    rfl
  · have hone : (1 : ℚ) < D / (points D : ℚ) := by
      rw [lt_div_iff hn]
      nlinarith [points_pos_rat D]
    have hchain : List.Chain' (fun p q : VolumePoint => p.time + 1 < q.time)
        (generateVolumeCurve D b v rand) := by
      rw [generateVolumeCurve, List.chain'_map]
      refine (List.chain'_range_succ _ (points D)).mpr ?_
      intro m hm
      dsimp only
      push_cast
      linarith [curveTime_step D m]
    have htrans : IsTrans VolumePoint (fun p q => p.time + 1 < q.time) :=
      ⟨fun a b c hab hbc => by linarith⟩
    have hpair : List.Pairwise (fun p q : VolumePoint => p.time + 1 < q.time)
        (generateVolumeCurve D b v rand) :=
      (@List.chain'_iff_pairwise _ _ htrans _).mp hchain
    rw [buildVolumeFilter, List.pairwise_map]
    exact hpair

theorem volume_filter_windows_amended_witness :
    ((60 : ℚ) ≤ 60) ∧
    (buildVolumeFilter
        (generateVolumeCurve 60 1 1 (fun _ => 0)) =
      (generateVolumeCurve 60 1 1 (fun _ => 0)).map
        (fun p => ⟨p.time, p.time + 1, p.volume⟩) ∧
    (buildVolumeFilter
        (generateVolumeCurve 60 1 1 (fun _ => 0))).length =
      (generateVolumeCurve 60 1 1 (fun _ => 0)).length ∧
    (∀ w ∈ buildVolumeFilter
        (generateVolumeCurve 60 1 1 (fun _ => 0)),
      w.hi = w.lo + 1) ∧
    List.Pairwise (fun w1 w2 => w1.hi < w2.lo)
      (buildVolumeFilter
        (generateVolumeCurve 60 1 1 (fun _ => 0)))) :=
  ⟨by decide,
    volume_filter_windows_amended 60 1 1 (fun _ => 0)
      (by decide)⟩

theorem mean_mem_bounds (l : List ℚ) (hne : l ≠ [])
    (h : ∀ x ∈ l, -1 ≤ x ∧ x ≤ 1) :
    -1 ≤ l.sum / (l.length : ℚ) ∧ l.sum / (l.length : ℚ) ≤ 1 := by
  have hlen : (0 : ℚ) < (l.length : ℚ) := by
    have := List.length_pos.mpr hne
    exact_mod_cast this
  have hup : l.sum ≤ l.length • (1 : ℚ) :=
    List.sum_le_card_nsmul l 1 fun x hx => (h x hx).2
  have hlo : l.length • (-1 : ℚ) ≤ l.sum :=
    List.card_nsmul_le_sum l (-1) fun x hx => (h x hx).1
  rw [nsmul_eq_mul] at hup hlo
  constructor
  · rw [le_div_iff hlen]
    linarith
  · rw [div_le_iff hlen]
    linarith

/-- Claim C7: for every spatial drift in [0, 1] and random draws in [0, 1), every
pan value of the generated pan curve lies in [-1, 1]; the stem pan filter is
the static stereo split 1 - max(0, pan) / 1 + min(0, pan) of the mean of the
pan curve, and both gains lie in [0, 2]. -/
theorem pan_curve_and_filter_bounds (D drift : ℚ) (rand : ℕ → ℚ)
    (hd0 : 0 ≤ drift) (hd1 : drift ≤ 1)
    (hr : ∀ i, 0 ≤ rand i ∧ rand i < 1) :
    (∀ pt ∈ generatePanCurve D drift rand, -1 ≤ pt.pan ∧ pt.pan ≤ 1) ∧
    buildPanFilter (averagePan (generatePanCurve D drift rand)) =
      (1 - max 0 (averagePan (generatePanCurve D drift rand)),
       1 + min 0 (averagePan (generatePanCurve D drift rand))) ∧
    (0 ≤ (buildPanFilter (averagePan (generatePanCurve D drift rand))).1 ∧
      (buildPanFilter (averagePan (generatePanCurve D drift rand))).1 ≤ 2 ∧
      0 ≤ (buildPanFilter (averagePan (generatePanCurve D drift rand))).2 ∧
      (buildPanFilter (averagePan (generatePanCurve D drift rand))).2 ≤ 2) := by
  have hpan : ∀ pt ∈ generatePanCurve D drift rand, -1 ≤ pt.pan ∧ pt.pan ≤ 1 := by
    intro pt hpt
    rcases List.mem_map.mp hpt with ⟨i, -, rfl⟩
    have h1 := (hr i).1
    have h2 := (hr i).2
    constructor
    · simp only
      nlinarith
    · simp only
      nlinarith
  have hmean : -1 ≤ averagePan (generatePanCurve D drift rand) ∧
      averagePan (generatePanCurve D drift rand) ≤ 1 := by
    rw [averagePan]
    have hlenmap : ((generatePanCurve D drift rand).map PanPoint.pan).length =
        (generatePanCurve D drift rand).length := List.length_map _ _
    have hne : (generatePanCurve D drift rand).map PanPoint.pan ≠ [] := by
      have : (generatePanCurve D drift rand).length = points D + 1 := by
        simp [generatePanCurve]
      intro hcon
      rw [← List.length_eq_zero] at hcon
      omega
    have := mean_mem_bounds ((generatePanCurve D drift rand).map PanPoint.pan)
      hne (by
        intro x hx
        rcases List.mem_map.mp hx with ⟨pt, hpt, rfl⟩
        exact hpan pt hpt)
    rw [hlenmap] at this
    exact this
  refine ⟨hpan, rfl, ?_, ?_, ?_, ?_⟩
  · rw [buildPanFilter]
    simp only
    have : max 0 (averagePan (generatePanCurve D drift rand)) ≤ 1 :=
      max_le (by norm_num) hmean.2
    linarith
  · rw [buildPanFilter]
    simp only
    have : 0 ≤ max 0 (averagePan (generatePanCurve D drift rand)) :=
      le_max_left _ _
    linarith
  · rw [buildPanFilter]
    simp only
    have : -1 ≤ min 0 (averagePan (generatePanCurve D drift rand)) :=
      le_min (by norm_num) hmean.1
    linarith
  · rw [buildPanFilter]
    simp only
    have : min 0 (averagePan (generatePanCurve D drift rand)) ≤ 0 :=
      min_le_left _ _
    linarith

theorem pan_curve_and_filter_bounds_witness :
    ((0 : ℚ) ≤ 1 ∧ (1 : ℚ) ≤ 1 ∧
      ∀ i : ℕ, (0 : ℚ) ≤ 0 ∧ (0 : ℚ) < 1) ∧
    ((∀ pt ∈ generatePanCurve 60 1 (fun _ => 0),
        -1 ≤ pt.pan ∧ pt.pan ≤ 1) ∧
      buildPanFilter (averagePan (generatePanCurve 60 1 (fun _ => 0))) =
        (1 - max 0 (averagePan (generatePanCurve 60 1 (fun _ => 0))),
         1 + min 0 (averagePan (generatePanCurve 60 1 (fun _ => 0)))) ∧
      (0 ≤ (buildPanFilter
          (averagePan (generatePanCurve 60 1 (fun _ => 0)))).1 ∧
        (buildPanFilter
          (averagePan (generatePanCurve 60 1 (fun _ => 0)))).1 ≤ 2 ∧
        0 ≤ (buildPanFilter
          (averagePan (generatePanCurve 60 1 (fun _ => 0)))).2 ∧
        (buildPanFilter
          (averagePan (generatePanCurve 60 1 (fun _ => 0)))).2 ≤ 2)) :=
  have hr : ∀ i : ℕ, (0 : ℚ) ≤ 0 ∧ (0 : ℚ) < 1 := fun _ => ⟨le_refl 0, by decide⟩
  ⟨⟨by decide, by decide, hr⟩,
    pan_curve_and_filter_bounds 60 1 (fun _ => 0) (by decide) (by decide) hr⟩

/-! ### AudioMixEngine progress reporting (src/services/aiService.js,
`generateAudio` lines 441-517)

The encoder handlers of `generateAudio` deliver, on a successful run:
one event from the `start` handler (`progressCallback(0, ...)`); from each
`progress` report with a truthy `percent`, an event only when
`Math.floor(percent) >= lastProgress + 5`, updating `lastProgress`; and
one terminal event `progressCallback(100, 'Audio generation completed')`
from the `end` handler.  On a failing run the `error` handler (lines
501-507) instead ends the stream with `progressCallback(0, 'Error: ...')`. -/

/-- Which handler of `generateAudio` emitted a progress event. -/
inductive EventKind where
  | started
  | processing
  | completed
  | errored
deriving DecidableEq

/-- One `progressCallback(percent, message)` invocation. -/
structure ProgressEvent where
  percent : ℤ
  kind : EventKind
deriving DecidableEq

/-- The `progress` handler of `generateAudio` (lines 464-479): skip falsy
percents, floor, and emit only on an advance of at least 5 points over
`lastProgress`. -/
def progressEvents : List ℚ → ℤ → List ProgressEvent
  | [], _ => []
  | p :: rest, lastProgress =>
    if p ≠ 0 ∧ lastProgress + 5 ≤ ⌊p⌋ then
      ⟨⌊p⌋, EventKind.processing⟩ :: progressEvents rest ⌊p⌋
    else
      progressEvents rest lastProgress

/-- Full event stream a successful `generateAudio` run delivers to its
progress sink, given the raw percents the encoder reported. -/
def generateAudioEvents (raw : List ℚ) : List ProgressEvent :=
  ⟨0, EventKind.started⟩ ::
    (progressEvents raw 0 ++ [⟨100, EventKind.completed⟩])

/-- Full event stream a failing `generateAudio` run delivers to its
progress sink: the `error` handler (aiService.js lines 501-507) ends it
with `progressCallback(0, 'Error: ' + err.message)`, whatever progress was
already reported. -/
def generateAudioFailureEvents (raw : List ℚ) : List ProgressEvent :=
  ⟨0, EventKind.started⟩ ::
    (progressEvents raw 0 ++ [⟨0, EventKind.errored⟩])

theorem progressEvents_mem (raw : List ℚ) (lastProgress : ℤ)
    (e : ProgressEvent) (he : e ∈ progressEvents raw lastProgress) :
    e.kind = EventKind.processing ∧ lastProgress + 5 ≤ e.percent := by
  induction raw generalizing lastProgress with
  | nil => simp [progressEvents] at he
  | cons p rest ih =>
    by_cases hc : p ≠ 0 ∧ lastProgress + 5 ≤ ⌊p⌋
    · rw [progressEvents, if_pos hc] at he
      rcases List.mem_cons.mp he with h | h
      · subst h
        exact ⟨rfl, hc.2⟩
      · have h2 := ih _ h
        exact ⟨h2.1, by omega⟩
    · rw [progressEvents, if_neg hc] at he
      exact ih _ he

theorem progressEvents_le (raw : List ℚ) (lastProgress : ℤ)
    (hb : ∀ p ∈ raw, p ≤ 100) (e : ProgressEvent)
    (he : e ∈ progressEvents raw lastProgress) : e.percent ≤ 100 := by
  induction raw generalizing lastProgress with
  | nil => simp [progressEvents] at he
  | cons p rest ih =>
    have hp : p ≤ 100 := hb p (List.mem_cons_self p rest)
    have hb' : ∀ q ∈ rest, q ≤ 100 := fun q hq => hb q (List.mem_cons_of_mem p hq)
    by_cases hc : p ≠ 0 ∧ lastProgress + 5 ≤ ⌊p⌋
    · rw [progressEvents, if_pos hc] at he
      rcases List.mem_cons.mp he with h | h
      · subst h
        have hf : ⌊p⌋ ≤ ⌊(100 : ℚ)⌋ := Int.floor_le_floor hp
        have h100 : ⌊(100 : ℚ)⌋ = 100 := by norm_num
        simpa [h100] using hf
      · exact ih _ hb' h
    · rw [progressEvents, if_neg hc] at he
      exact ih _ hb' he

theorem progressEvents_chain' (raw : List ℚ) (lastProgress : ℤ) :
    List.Chain' (fun a b => a.percent ≤ b.percent)
      (progressEvents raw lastProgress) := by
  induction raw generalizing lastProgress with
  | nil => simp [progressEvents]
  | cons p rest ih =>
    by_cases hc : p ≠ 0 ∧ lastProgress + 5 ≤ ⌊p⌋
    · rw [progressEvents, if_pos hc, List.chain'_cons']
      refine ⟨?_, ih _⟩
      intro y hy
      have hm : y ∈ progressEvents rest ⌊p⌋ := List.mem_of_mem_head? hy
      have := (progressEvents_mem _ _ _ hm).2
      simp only
      omega
    · rw [progressEvents, if_neg hc]
      exact ih _

/-- Claim C3 counterexample: the claim quantifies over every audio
generation job, but on a failing job the `error` handler emits percent 0
after any earlier progress, so a job that fails after reporting 30 percent
delivers the sequence 0, 30, 0 — not monotone non-decreasing. -/
theorem audio_progress_monotone_counterexample :
    generateAudioFailureEvents [30] =
      [⟨0, EventKind.started⟩, ⟨30, EventKind.processing⟩,
        ⟨0, EventKind.errored⟩] ∧
    ¬ List.Chain' (fun a b => a.percent ≤ b.percent)
      (generateAudioFailureEvents [30]) := by
  have h30 : ⌊(30 : ℚ)⌋ = 30 := by norm_num
  have hcond : (30 : ℚ) ≠ 0 ∧ (0 : ℤ) + 5 ≤ ⌊(30 : ℚ)⌋ := by
    refine ⟨by norm_num, ?_⟩
    rw [h30]
    norm_num
  have hev : generateAudioFailureEvents [30] =
      [⟨0, EventKind.started⟩, ⟨30, EventKind.processing⟩,
        ⟨0, EventKind.errored⟩] := by
    rw [generateAudioFailureEvents, progressEvents, if_pos hcond,
      progressEvents, h30]
    rfl
  refine ⟨hev, ?_⟩
  rw [hev]
  intro hch
  rw [List.chain'_cons, List.chain'_cons] at hch
  have h := hch.2.1
  dsimp only at h
  omega

/-- Claim C3 amended: for every audio generation job that completes
successfully and whose encoder reports percents of at most 100, the
progress percentages delivered to the sink are monotone non-decreasing,
and the run ends with exactly one terminal 100-percent completion event
that follows all other events. -/
theorem audio_progress_monotone (raw : List ℚ) (hb : ∀ p ∈ raw, p ≤ 100) :
    List.Chain' (fun a b => a.percent ≤ b.percent) (generateAudioEvents raw) ∧
    (generateAudioEvents raw).getLast? = some ⟨100, EventKind.completed⟩ ∧
    (generateAudioEvents raw).countP
      (fun e => decide (e.kind = EventKind.completed)) = 1 := by
  refine ⟨?_, ?_, ?_⟩
  · rw [generateAudioEvents, List.chain'_cons']
    constructor
    · intro y hy
      have hm : y ∈ progressEvents raw 0 ++ [⟨100, EventKind.completed⟩] :=
        List.mem_of_mem_head? hy
      rcases List.mem_append.mp hm with h | h
      · have := (progressEvents_mem _ _ _ h).2
        simp only
        omega
      · simp only [List.mem_singleton] at h
        subst h
        norm_num
    · rw [List.chain'_append]
      refine ⟨progressEvents_chain' raw 0, by simp, ?_⟩
      intro x hx y hy
      have hxm : x ∈ progressEvents raw 0 := List.mem_of_mem_getLast? hx
      have hx100 := progressEvents_le raw 0 hb x hxm
      simp only [List.head?_cons, Option.mem_def, Option.some.injEq] at hy
      subst hy
      exact hx100
  · rw [generateAudioEvents, ← List.cons_append, List.getLast?_concat]
  · rw [generateAudioEvents, List.countP_cons, List.countP_append]
    have h0 : (progressEvents raw 0).countP
        (fun e => decide (e.kind = EventKind.completed)) = 0 := by
      rw [List.countP_eq_zero]
      intro e he
      have := (progressEvents_mem _ _ _ he).1
      simp [this]
    rw [h0]
    rfl

theorem audio_progress_monotone_witness :
    (∀ p ∈ [(30 : ℚ), 60], p ≤ 100) ∧
    (List.Chain' (fun a b => a.percent ≤ b.percent)
        (generateAudioEvents [30, 60]) ∧
      (generateAudioEvents [30, 60]).getLast? =
        some ⟨100, EventKind.completed⟩ ∧
      (generateAudioEvents [30, 60]).countP
        (fun e => decide (e.kind = EventKind.completed)) = 1) :=
  ⟨by decide, audio_progress_monotone [30, 60] (by decide)⟩

/-! ### Encoder failure handling of `generateAudio` (aiService.js lines
501-515): the `error` handler reports the error to the sink, removes the
partial output file when it exists, and rejects with the diagnostic wrapped
as `Audio generation failed: ...`. -/

/-- One observable effect of the `error` handler of `generateAudio`. -/
inductive ErrorAction where
  | emitProgress (percent : ℤ) (message : String)
  | deleteFile (path : String)
  | reject (message : String)
deriving DecidableEq

/-- Ordered effects of the `error` handler (aiService.js lines 501-515):
`progressCallback(0, ...)`, then `fs.unlinkSync(outputPath)` when the
partial output exists, then `reject(new Error(...))`. -/
def encoderErrorActions (outputPath : String) (outputExists : Bool)
    (errMessage : String) : List ErrorAction :=
  ErrorAction.emitProgress 0 ("Error: " ++ errMessage) ::
    ((if outputExists then [ErrorAction.deleteFile outputPath] else []) ++
      [ErrorAction.reject ("Audio generation failed: " ++ errMessage)])

/-- Claim C8: whenever the encoder fails during `generateAudio`, any partial
output file is deleted before the rejection, and the resulting error wraps
the diagnostic text in a structured message that is never the raw
diagnostic itself. -/
theorem encoder_failure_cleanup_and_wrap (outputPath errMessage : String) :
    encoderErrorActions outputPath true errMessage =
      [ErrorAction.emitProgress 0 ("Error: " ++ errMessage),
        ErrorAction.deleteFile outputPath,
        ErrorAction.reject ("Audio generation failed: " ++ errMessage)] ∧
    encoderErrorActions outputPath false errMessage =
      [ErrorAction.emitProgress 0 ("Error: " ++ errMessage),
        ErrorAction.reject ("Audio generation failed: " ++ errMessage)] ∧
    "Audio generation failed: " ++ errMessage ≠ errMessage := by
  refine ⟨rfl, rfl, ?_⟩
  intro h
  have h2 := congrArg String.length h
  simp only [String.length_append] at h2
  have h3 : "Audio generation failed: ".length = 0 := by omega
  exact absurd h3 (by decide)

/-! ### JobRunner (src/unnamed/part_003, `JobQueueService.addJob`,
lines 165-208)

`addJob(queueName, jobName, data, processor)` either enqueues (when Redis
is reachable and the queue exists) or runs the processor inline inside a
try/catch, returning a status object in every case.  The processor is
modelled by its outcome: a thrown error becomes `Except.error`. -/

/-- Status object `addJob` returns to its caller. -/
inductive JobOutcome (α : Type) where
  | queued (jobId : String) (message : String)
  | completed (result : α) (message : String)
  | failed (error : String) (message : String)
deriving DecidableEq

/-- `JobQueueService.addJob` (part_003 lines 165-208). -/
def addJob (α : Type) (redisAvailable queueRegistered : Bool)
    (jobId : String) (processor : Except String α) : JobOutcome α :=
  if redisAvailable && queueRegistered then
    JobOutcome.queued jobId "Job queued for processing"
  else
    match processor with
    | Except.ok r => JobOutcome.completed r "Job completed synchronously"
    | Except.error e => JobOutcome.failed e "Job failed"

/-- Claim C9: in INLINE mode (no durable queue), `addJob` with a throwing
processor returns a failed-status object carrying the error and never lets
the exception escape: the call is total and every processor outcome maps to
a returned completed or failed status. -/
theorem inline_submit_never_raises (α : Type) (queueRegistered : Bool)
    (jobId e : String) :
    addJob α false queueRegistered jobId (Except.error e) =
      JobOutcome.failed e "Job failed" ∧
    (∀ processor : Except String α,
      (∃ r, processor = Except.ok r ∧
        addJob α false queueRegistered jobId processor =
          JobOutcome.completed r "Job completed synchronously") ∨
      (∃ msg, processor = Except.error msg ∧
        addJob α false queueRegistered jobId processor =
          JobOutcome.failed msg "Job failed")) := by
  constructor
  · simp [addJob]
  · intro processor
    cases processor with
    | ok r => exact Or.inl ⟨r, rfl, by simp [addJob]⟩
    | error msg => exact Or.inr ⟨msg, rfl, by simp [addJob]⟩

/-! ### Stem volume resolution in `generateAudio` (aiService.js lines
377-384)

`volume: stemConfig.volume || dbStem.default_volume || 0.7` — the JS `||`
treats an absent field and a zero value alike as falsy. -/

/-- JS `||` on an optional numeric field: an absent or zero value yields
the fallback. -/
def jsOr (value : Option ℚ) (fallback : ℚ) : ℚ :=
  match value with
  | none => fallback
  | some v => if v = 0 then fallback else v

/-- Base volume of one stem (aiService.js line 382):
`stemConfig.volume || dbStem.default_volume || 0.7`. -/
def resolveStemVolume (configVolume defaultVolume : Option ℚ) : ℚ :=
  jsOr configVolume (jsOr defaultVolume (7 / 10))

/-- Claim C10: a per-stem volume override equal to 0 or absent is never honored:
the base volume falls back to the catalog default volume, and to 0.7 when
the default is also absent or zero; in particular the resolved base volume
is never 0. -/
theorem zero_override_not_honored (ov d : Option ℚ)
    (hov : ov = none ∨ ov = some 0) :
    resolveStemVolume ov d = jsOr d (7 / 10) ∧
    resolveStemVolume ov none = 7 / 10 ∧
    resolveStemVolume ov (some 0) = 7 / 10 ∧
    (∀ v : ℚ, v ≠ 0 → resolveStemVolume ov (some v) = v) ∧
    ((∀ v : ℚ, d = some v → v ≠ 0) → resolveStemVolume ov d ≠ 0) := by
  have hbase : resolveStemVolume ov d = jsOr d (7 / 10) := by
    rcases hov with rfl | rfl
    · rfl
    · simp [resolveStemVolume, jsOr]
  refine ⟨hbase, ?_, ?_, ?_, ?_⟩
  · rcases hov with rfl | rfl <;> simp [resolveStemVolume, jsOr]
  · rcases hov with rfl | rfl <;> simp [resolveStemVolume, jsOr]
  · intro v hv
    rcases hov with rfl | rfl <;> simp [resolveStemVolume, jsOr, hv]
  · intro hd
    rw [hbase]
    cases d with
    | none =>
      simp [jsOr]
    | some v =>
      by_cases hv : v = 0
      · simp [jsOr, hv]
      · simp [jsOr, hv]

theorem zero_override_not_honored_witness :
    (some (0 : ℚ) = none ∨ some (0 : ℚ) = some 0) ∧
    (resolveStemVolume (some 0) (some 1) = jsOr (some 1) (7 / 10) ∧
      resolveStemVolume (some 0) none = 7 / 10 ∧
      resolveStemVolume (some 0) (some 0) = 7 / 10 ∧
      (∀ v : ℚ, v ≠ 0 → resolveStemVolume (some 0) (some v) = v) ∧
      ((∀ v : ℚ, some (1 : ℚ) = some v → v ≠ 0) →
        resolveStemVolume (some 0) (some 1) ≠ 0)) :=
  ⟨Or.inr rfl, zero_override_not_honored (some 0) (some 1) (Or.inr rfl)⟩

end StreamFactory
